import Mathlib

/-!
# Verification of the lukso-orchestrator consensus handler

A shallow embedding of `orchestrator/consensus/handler.go`: the two entry
points `processPandoraHeader` and `processVanguardShardInfo`, the commit
routine `insertIntoChain`, the short-circuit lookup `getShardingInfo`,
the store writers `writeShardInfoInDB` and `writeFinalizeInfo`, and the
confirmation publisher `publishBlockConfirmation`.

The handler's collaborators (the kv store, the two slot-keyed caches, the
reorg checker/resolver and the structural comparison helpers) live outside
the embedded file; they are modelled from the specification, each marked
with a `Modelled from the spec:` doc comment.  Hashes and roots are
modelled as natural numbers; fallible store and reorg operations carry an
explicit fault-injection record so that error paths are expressible.
-/

namespace Orc

/-- 32-byte hash / root values, modelled abstractly as naturals.
`0` plays the role of the zero hash `common.Hash{}`. -/
abbrev Hash := Nat

abbrev Slot := Nat

abbrev StepId := Nat

/-- Modelled from the spec: the execution-shard metadata mirrored between a
pandora header's `extra` payload and a vanguard block's embedded `ShardInfo`
(`blob_id`, `tx_root`, `receipt_root`, `state_root`, `gas_limit`,
`gas_used`, `hash`, `state_root_hash`, `time`, `block_number`).  The
protobuf definition is not under src/. -/
structure ShardData where
  blobId : Nat
  txRoot : Hash
  receiptRoot : Hash
  stateRoot : Hash
  gasLimit : Nat
  gasUsed : Nat
  hash : Hash
  stateRootHash : Hash
  time : Nat
  blockNumber : Nat
deriving DecidableEq, Repr

/-- An execution-layer block header (`eth1Types.Header`).  `hash` stands for
the derived `Header.Hash()`; `shard` is the shard metadata encoded in the
header's `extra` field. -/
structure PandoraHeader where
  hash : Hash
  parentHash : Hash
  number : Nat
  shard : ShardData
deriving DecidableEq, Repr

/-- `types.PandoraHeaderInfo`: a slot together with its pandora header. -/
structure PandoraHeaderInfo where
  slot : Slot
  header : PandoraHeader
deriving DecidableEq, Repr

/-- `types.VanguardShardInfo`: a consensus-layer block announcement. -/
structure VanguardShardInfo where
  slot : Slot
  blockRoot : Hash
  parentRoot : Hash
  finalizedSlot : Nat
  finalizedEpoch : Nat
  shardInfo : ShardData
deriving DecidableEq, Repr

/-- One execution shard inside a verified record; the handler reads its
`hash` and the parent linkage. -/
structure ExecutionShard where
  hash : Hash
  parentHash : Hash
deriving DecidableEq, Repr

/-- `types.MultiShardInfo`, a verified record stored under a step id. -/
structure MultiShardInfo where
  slot : Slot
  slotBlockRoot : Hash
  parentRoot : Hash
  shards : List ExecutionShard
deriving DecidableEq, Repr

/-- `MultiShardInfo.NotNil`: the record carries at least one shard. -/
def MultiShardInfo.notNil (r : MultiShardInfo) : Bool :=
  !r.shards.isEmpty

/-- `MultiShardInfo.GetPanShardRoot`: hash of the first execution shard
(zero hash when absent). -/
def MultiShardInfo.getPanShardRoot (r : MultiShardInfo) : Hash :=
  match r.shards with
  | s :: _ => s.hash
  | [] => 0

/-- `MultiShardInfo.GetVanSlotRoot`: the consensus block root of the
record. -/
def MultiShardInfo.getVanSlotRoot (r : MultiShardInfo) : Hash :=
  r.slotBlockRoot

/-- `types.Status` of a block confirmation. -/
inductive Status where
  | Pending
  | Verified
  | Invalid
  | Skipped
deriving DecidableEq, Repr

/-- `types.SlotInfoWithStatus`, the tuple sent on the confirmation feed. -/
structure Confirmation where
  pandoraHeaderHash : Hash
  vanguardBlockHash : Hash
  status : Status
deriving DecidableEq, Repr

/-- `types.ReorgStatus`, the in-memory reorg state. -/
structure ReorgStatus where
  slot : Slot
  blockRoot : Hash
  parentStepId : StepId
  parentShardInfo : MultiShardInfo
  pandoraHash : Hash
  hasResolved : Bool
deriving DecidableEq, Repr

/-- The durable kv store: verified records keyed by step id, the
slot-to-step index, the head pointer and the finalisation scalars. -/
structure Store where
  records : List (StepId × MultiShardInfo)
  slotIndex : List (Slot × StepId)
  latestStepId : StepId
  finalizedSlot : Nat
  finalizedEpoch : Nat
deriving DecidableEq, Repr

/-- Fault injection for the fallible store / reorg operations: a read or
write listed here returns an error, mirroring an I/O failure of the kv
backend. -/
structure Faults where
  stepIdErrSlots : List Slot
  verifiedErrSteps : List StepId
  saveVerifiedErr : Bool
  saveStepIdErr : Bool
  saveSlotIndexErr : Bool
  saveFinalizedSlotErr : Bool
  saveFinalizedEpochErr : Bool
  processReorgErr : Bool
deriving DecidableEq, Repr

/-- No fault is injected: every store and reorg operation succeeds. -/
def Faults.none : Faults :=
  ⟨[], [], false, false, false, false, false, false⟩

def lookupRecord (st : Store) (stepId : StepId) : Option MultiShardInfo :=
  (st.records.find? (fun p => p.1 == stepId)).map (·.2)

def lookupSlotIndex (st : Store) (slot : Slot) : Option StepId :=
  (st.slotIndex.find? (fun p => p.1 == slot)).map (·.2)

/-- `db.GetStepIdBySlot`: errors on an injected fault or a missing slot
(the secondary index maps `slot → step_id | none`). -/
def getStepIdBySlot (f : Faults) (st : Store) (slot : Slot) : Except Unit StepId :=
  if slot ∈ f.stepIdErrSlots then .error ()
  else
    match lookupSlotIndex st slot with
    | some stepId => .ok stepId
    | none => .error ()

/-- `db.VerifiedShardInfo`: errors on an injected fault, otherwise returns
the record (or `none`, the Go nil pointer) stored under `stepId`. -/
def verifiedShardInfo (f : Faults) (st : Store) (stepId : StepId) :
    Except Unit (Option MultiShardInfo) :=
  if stepId ∈ f.verifiedErrSteps then .error ()
  else .ok (lookupRecord st stepId)

/-- `db.SaveVerifiedShardInfo`: stores `info` under `stepId` unless the
write fault is injected. -/
def saveVerifiedShardInfo (f : Faults) (st : Store) (stepId : StepId)
    (info : MultiShardInfo) : Except Unit Store :=
  if f.saveVerifiedErr then .error ()
  else .ok { st with records := (stepId, info) :: st.records.filter (fun p => p.1 != stepId) }

/-- `db.SaveLatestStepID`: advances the head pointer unless the write fault
is injected. -/
def saveLatestStepId (f : Faults) (st : Store) (stepId : StepId) : Except Unit Store :=
  if f.saveStepIdErr then .error ()
  else .ok { st with latestStepId := stepId }

/-- `db.SaveSlotStepIndex`: updates the secondary index unless the write
fault is injected. -/
def saveSlotStepIndex (f : Faults) (st : Store) (slot : Slot) (stepId : StepId) :
    Except Unit Store :=
  if f.saveSlotIndexErr then .error ()
  else .ok { st with slotIndex := (slot, stepId) :: st.slotIndex.filter (fun p => p.1 != slot) }

/-- An entry of the pandora header cache. -/
structure PanCacheEntry where
  header : PandoraHeader
  lastVerified : Option MultiShardInfo
  inProgress : Bool
deriving DecidableEq, Repr

/-- An entry of the vanguard shard cache. -/
structure VanCacheEntry where
  shard : VanguardShardInfo
  lastVerified : Option MultiShardInfo
  disableDelete : Bool
  inProgress : Bool
deriving DecidableEq, Repr

abbrev PanCache := List (Slot × PanCacheEntry)

abbrev VanCache := List (Slot × VanCacheEntry)

def panCacheGet (c : PanCache) (slot : Slot) : Option PanCacheEntry :=
  (c.find? (fun p => p.1 == slot)).map (·.2)

def vanCacheGet (c : VanCache) (slot : Slot) : Option VanCacheEntry :=
  (c.find? (fun p => p.1 == slot)).map (·.2)

/-- Modelled from the spec: `panHeaderCache.Put` (the cache package is not
under src/).  It fails with `UnknownParent` when no cached header is the
parent of the incoming one while a non-nil last-verified record disagrees
with the header's parent hash; otherwise it inserts or overwrites the
entry for the slot. -/
def panCachePut (c : PanCache) (slot : Slot) (h : PandoraHeader)
    (last : Option MultiShardInfo) : Except Unit PanCache :=
  let parentInCache := c.any (fun p => p.2.header.hash == h.parentHash)
  let lastMismatch :=
    match last with
    | some r =>
      match r.shards with
      | s :: _ => s.hash != h.parentHash
      | [] => true
    | none => false
  if !parentInCache && lastMismatch then .error ()
  else .ok ((slot, ⟨h, last, false⟩) :: c.filter (fun p => p.1 != slot))

/-- Modelled from the spec: `vanShardCache.Put` (the cache package is not
under src/).  It fails with `UnknownParent` unless the shard's parent root
matches the last-verified record's block root, a cached sibling's block
root, or the last-verified record is nil (genesis). -/
def vanCachePut (c : VanCache) (slot : Slot) (v : VanguardShardInfo)
    (disableDelete : Bool) (last : Option MultiShardInfo) : Except Unit VanCache :=
  let linked :=
    match last with
    | some r => r.slotBlockRoot == v.parentRoot
        || c.any (fun p => p.2.shard.blockRoot == v.parentRoot)
    | none => true
  if linked then .ok ((slot, ⟨v, last, disableDelete, false⟩) :: c.filter (fun p => p.1 != slot))
  else .error ()

/-- Modelled from the spec: `panHeaderCache.MarkInProgress` fails with
`AlreadyInProgress` when the flag is already set (or no entry exists). -/
def panMarkInProgress (c : PanCache) (slot : Slot) : Except Unit PanCache :=
  match panCacheGet c slot with
  | none => .error ()
  | some e =>
    if e.inProgress then .error ()
    else .ok ((slot, { e with inProgress := true }) :: c.filter (fun p => p.1 != slot))

/-- Modelled from the spec: `vanShardCache.MarkInProgress`. -/
def vanMarkInProgress (c : VanCache) (slot : Slot) : Except Unit VanCache :=
  match vanCacheGet c slot with
  | none => .error ()
  | some e =>
    if e.inProgress then .error ()
    else .ok ((slot, { e with inProgress := true }) :: c.filter (fun p => p.1 != slot))

/-- Modelled from the spec: `MarkNotInProgress`, a no-op on a missing
entry (the slot may have been evicted by `ForceDelSlot` meanwhile). -/
def panMarkNotInProgress (c : PanCache) (slot : Slot) : PanCache :=
  match panCacheGet c slot with
  | none => c
  | some e => (slot, { e with inProgress := false }) :: c.filter (fun p => p.1 != slot)

/-- Modelled from the spec: `MarkNotInProgress` for the vanguard cache. -/
def vanMarkNotInProgress (c : VanCache) (slot : Slot) : VanCache :=
  match vanCacheGet c slot with
  | none => c
  | some e => (slot, { e with inProgress := false }) :: c.filter (fun p => p.1 != slot)

/-- `ForceDelSlot`: unconditional eviction of a slot's entry. -/
def panForceDelSlot (c : PanCache) (slot : Slot) : PanCache :=
  c.filter (fun p => p.1 != slot)

/-- `ForceDelSlot` for the vanguard cache. -/
def vanForceDelSlot (c : VanCache) (slot : Slot) : VanCache :=
  c.filter (fun p => p.1 != slot)

/-- Modelled from the spec: `compareShardingInfo(header, shardInfo)` (the
helper is not under src/) — every mirrored execution-shard field encoded
in the header's `extra` must agree bitwise with the vanguard `ShardInfo`. -/
def compareShardingInfo (h : PandoraHeader) (si : ShardData) : Bool :=
  h.shard == si

/-- Modelled from the spec: `verifyShardInfo(latest, header, vanShard,
stepId)` (the helper is not under src/) — either `stepId == 0` (genesis)
or the latest record's first shard hash equals the header's parent hash
and the latest record's block root equals the shard's parent root. -/
def verifyShardInfo (latest : Option MultiShardInfo) (h : PandoraHeader)
    (v : VanguardShardInfo) (stepId : StepId) : Bool :=
  stepId == 0
    || match latest with
       | some r =>
         (match r.shards with
          | s :: _ => s.hash == h.parentHash
          | [] => false)
           && r.slotBlockRoot == v.parentRoot
       | none => false

/-- Modelled from the spec: `utils.PrepareMultiShardData(v, h, 1, 1)` (the
utils package is not under src/) builds the verified record binding the
consensus roots to the single execution shard of the header. -/
def prepareMultiShardData (v : VanguardShardInfo) (h : PandoraHeader) : MultiShardInfo :=
  { slot := v.slot
    slotBlockRoot := v.blockRoot
    parentRoot := v.parentRoot
    shards := [⟨h.hash, h.parentHash⟩] }

/-- Modelled from the spec: the common-ancestor walk of the reorg
controller — step ids are scanned downward until a record whose block root
equals the sought parent root is found. -/
def searchAncestor (st : Store) (root : Hash) : StepId → Option (StepId × MultiShardInfo)
  | 0 => none
  | n + 1 =>
    match lookupRecord st (n + 1) with
    | some r => if r.slotBlockRoot == root then some (n + 1, r) else searchAncestor st root n
    | none => searchAncestor st root n

/-- Modelled from the spec: `checkReorg(v, head, headStepId)` (the checker
is not under src/).  No reorg at genesis or when the shard extends the
head; when the shard's parent root disagrees with the head, the common
ancestor is searched downward — found: reorg with that ancestor; not
found: an error (the shard is discarded by the caller). -/
def checkReorg (st : Store) (v : VanguardShardInfo) (head : Option MultiShardInfo)
    (headStepId : StepId) : Except Unit (Option (StepId × MultiShardInfo)) :=
  if headStepId == 0 then .ok none
  else
    match head with
    | none => .ok none
    | some hd =>
      if hd.slotBlockRoot == v.parentRoot then .ok none
      else
        match searchAncestor st v.parentRoot (headStepId - 1) with
        | some res => .ok (some res)
        | none => .error ()

/-- Modelled from the spec: `processReorg(parentStepId, parentShardInfo)`
(the resolver is not under src/) — `remove_range(parentStepId + 1,
latest_step_id)` on records and slot index, then rewind the head pointer;
a fault makes it fail wholesale. -/
def processReorg (f : Faults) (st : Store) (parentStepId : StepId) : Except Unit Store :=
  if f.processReorgErr then .error ()
  else .ok { st with
    records := st.records.filter (fun p => decide (p.1 ≤ parentStepId))
    slotIndex := st.slotIndex.filter (fun p => decide (p.2 ≤ parentStepId))
    latestStepId := parentStepId }

/-- The errors `handler.go` returns to its caller. -/
inductive OrcError where
  | dbCorrupted
  | nilLatestShardInfo
  | alreadyInProgress
  | writeFailed
deriving DecidableEq, Repr

/-- The consensus `Service`: kv store, the two slot caches, the in-memory
reorg status, the confirmations sent so far, and the slot-clock
configuration.  `faults` injects failures of the fallible collaborators. -/
structure Service where
  store : Store
  panCache : PanCache
  vanCache : VanCache
  curReorgStatus : Option ReorgStatus
  published : List Confirmation
  genesisTime : Nat
  secondsPerSlot : Nat
  faults : Faults
deriving DecidableEq, Repr

/-- `publishBlockConfirmation`: send a `SlotInfoWithStatus` on the
verified-slot-info feed. -/
def publishBlockConfirmation (s : Service) (blockHash slotHash : Hash)
    (status : Status) : Service :=
  { s with published := s.published ++ [⟨blockHash, slotHash, status⟩] }

/-- `getShardingInfo`: look up the step id of a slot and then its verified
record; any store error collapses to `none` (the Go nil pointer). -/
def Service.getShardingInfo (s : Service) (slot : Slot) : Option MultiShardInfo :=
  match getStepIdBySlot s.faults s.store slot with
  | .error _ => none
  | .ok stepId =>
    match verifiedShardInfo s.faults s.store stepId with
    | .error _ => none
    | .ok shardInfo => shardInfo

/-- `writeShardInfoInDB`: save the record under `latest_step_id + 1`,
advance the head pointer, update the slot index.  Each step can fail, in
which case the earlier writes persist and the error surfaces. -/
def writeShardInfoInDB (f : Faults) (st : Store) (shardInfo : MultiShardInfo) :
    Store × Option OrcError :=
  let nextStepId := st.latestStepId + 1
  match saveVerifiedShardInfo f st nextStepId shardInfo with
  | .error _ => (st, some .writeFailed)
  | .ok st1 =>
    match saveLatestStepId f st1 nextStepId with
    | .error _ => (st1, some .writeFailed)
    | .ok st2 =>
      match saveSlotStepIndex f st2 shardInfo.slot nextStepId with
      | .error _ => (st2, some .writeFailed)
      | .ok st3 => (st3, none)

/-- `writeFinalizeInfo`: store the finalized slot / epoch when strictly
greater than the current values; a failed save is only logged. -/
def writeFinalizeInfo (f : Faults) (st : Store) (finalizeSlot finalizeEpoch : Nat) : Store :=
  let st1 :=
    if finalizeSlot > st.finalizedSlot && !f.saveFinalizedSlotErr then
      { st with finalizedSlot := finalizeSlot }
    else st
  if finalizeEpoch > st1.finalizedEpoch && !f.saveFinalizedEpochErr then
    { st1 with finalizedEpoch := finalizeEpoch }
  else st1

/-- The committing tail of `insertIntoChain` once both checks have passed
and any pending reorg has been resolved: build the record, write it to the
store (surfacing a failure before anything is published or evicted), store
the finalisation info, evict both caches for the slot, and publish
`Verified`. -/
def commitShardInfo (s : Service) (v : VanguardShardInfo) (h : PandoraHeader) :
    Service × Option OrcError :=
  let newShardInfo := prepareMultiShardData v h
  match writeShardInfoInDB s.faults s.store newShardInfo with
  | (st', some e) => ({ s with store := st' }, some e)
  | (st', none) =>
    let st'' := writeFinalizeInfo s.faults st' v.finalizedSlot v.finalizedEpoch
    let s' := { s with
      store := st''
      panCache := panForceDelSlot s.panCache v.slot
      vanCache := vanForceDelSlot s.vanCache v.slot }
    (publishBlockConfirmation s' h.hash v.blockRoot .Verified, none)

/-- `insertIntoChain`: verify the pair structurally and against the latest
verified record; resolve a matching unresolved reorg before appending; on
any check failure publish `Invalid` with the pair and change nothing. -/
def insertIntoChain (s : Service) (v : VanguardShardInfo) (h : PandoraHeader)
    (latestShardInfo : Option MultiShardInfo) (latestStepId : StepId) :
    Service × Option OrcError :=
  if compareShardingInfo h v.shardInfo && verifyShardInfo latestShardInfo h v latestStepId then
    match s.curReorgStatus with
    | some rs =>
      if rs.slot == v.slot && rs.blockRoot == v.blockRoot && !rs.hasResolved then
        match processReorg s.faults s.store rs.parentStepId with
        | .error _ => (s, none)
        | .ok st' =>
          commitShardInfo
            { s with store := st', curReorgStatus := some { rs with hasResolved := true } } v h
      else commitShardInfo s v h
    | none => commitShardInfo s v h
  else
    (publishBlockConfirmation s h.hash v.blockRoot .Invalid, none)

/-- The cache-facing tail of `processPandoraHeader`: put the header in the
pandora cache (an `UnknownParent` rejection becomes an `Invalid` publish
with the zero hash and a nil return), mark the slot in progress, pair with
a cached vanguard shard if present, and un-mark on exit. -/
def panCachePhase (s : Service) (headerInfo : PandoraHeaderInfo)
    (latestShardInfo : Option MultiShardInfo) (latestStepId : StepId) :
    Service × Option OrcError :=
  let slot := headerInfo.slot
  match panCachePut s.panCache slot headerInfo.header latestShardInfo with
  | .error _ =>
    (publishBlockConfirmation s headerInfo.header.hash 0 .Invalid, none)
  | .ok c1 =>
    let s1 := { s with panCache := c1 }
    match panMarkInProgress s1.panCache slot with
    | .error _ => (s1, some .alreadyInProgress)
    | .ok c2 =>
      let s2 := { s1 with panCache := c2 }
      let step :=
        match vanCacheGet s2.vanCache slot with
        | some entry => insertIntoChain s2 entry.shard headerInfo.header latestShardInfo latestStepId
        | none => (s2, none)
      ({ step.1 with panCache := panMarkNotInProgress step.1.panCache slot }, step.2)

/-- The body of `processPandoraHeader` past the short-circuit: load the
latest verified record, substitute the reorg ancestor when the header is
the one announced for the reorg slot, then enter the cache phase. -/
def panMain (s : Service) (headerInfo : PandoraHeaderInfo) : Service × Option OrcError :=
  let latestStepId := s.store.latestStepId
  match verifiedShardInfo s.faults s.store latestStepId with
  | .error _ => (s, some .dbCorrupted)
  | .ok latestShardInfo =>
    if latestStepId > 0 &&
        (match latestShardInfo with
         | none => true
         | some r => !r.notNil) then
      (s, some .nilLatestShardInfo)
    else
      let sub :=
        match s.curReorgStatus with
        | some rs =>
          if rs.pandoraHash == headerInfo.header.hash then
            (some rs.parentShardInfo, rs.parentStepId)
          else (latestShardInfo, latestStepId)
        | none => (latestShardInfo, latestStepId)
      panCachePhase s headerInfo sub.1 sub.2

/-- `processPandoraHeader`: nil input is a no-op; a slot already verified
with the same pandora hash re-publishes `Verified` instantly; otherwise
the main body runs. -/
def processPandoraHeader (s : Service) (headerInfo : Option PandoraHeaderInfo) :
    Service × Option OrcError :=
  match headerInfo with
  | none => (s, none)
  | some hi =>
    match s.getShardingInfo hi.slot with
    | some shardInfo =>
      if shardInfo.notNil then
        if shardInfo.getPanShardRoot == hi.header.hash then
          (publishBlockConfirmation s shardInfo.getPanShardRoot shardInfo.getVanSlotRoot
            .Verified, none)
        else panMain s hi
      else panMain s hi
    | none => panMain s hi

/-- The cache-facing tail of `processVanguardShardInfo`: compute the
disable-delete bit from the slot clock, put the shard in the vanguard
cache (an `UnknownParent` rejection is silently dropped), mark the slot in
progress, pair with a cached pandora header if present, and un-mark on
exit. -/
def vanCachePhase (now : Nat) (s : Service) (v : VanguardShardInfo)
    (headShardInfo : Option MultiShardInfo) (headStepId : StepId) :
    Service × Option OrcError :=
  let slot := v.slot
  let currentSlot := (now - s.genesisTime) / s.secondsPerSlot
  let disableDelete := decide (v.slot < currentSlot)
  match vanCachePut s.vanCache slot v disableDelete headShardInfo with
  | .error _ => (s, none)
  | .ok c1 =>
    let s1 := { s with vanCache := c1 }
    match vanMarkInProgress s1.vanCache slot with
    | .error _ => (s1, some .alreadyInProgress)
    | .ok c2 =>
      let s2 := { s1 with vanCache := c2 }
      let step :=
        match panCacheGet s2.panCache slot with
        | some entry => insertIntoChain s2 v entry.header headShardInfo headStepId
        | none => (s2, none)
      ({ step.1 with vanCache := vanMarkNotInProgress step.1.vanCache slot }, step.2)

/-- The body of `processVanguardShardInfo` past the short-circuit: load the
head record, consult the reorg checker (an error discards the shard), on a
detected reorg install `curReorgStatus` — only when no unresolved status
for a different block root is pending — and substitute the ancestor as the
head, then enter the cache phase. -/
def vanMain (now : Nat) (s : Service) (v : VanguardShardInfo) : Service × Option OrcError :=
  let headStepId := s.store.latestStepId
  match verifiedShardInfo s.faults s.store headStepId with
  | .error _ => (s, some .dbCorrupted)
  | .ok headShardInfo =>
    if headStepId > 0 &&
        (match headShardInfo with
         | none => true
         | some r => !r.notNil) then
      (s, some .nilLatestShardInfo)
    else
      match checkReorg s.store v headShardInfo headStepId with
      | .error _ => (s, none)
      | .ok (some (parentStepId, parentShardInfo)) =>
        if parentShardInfo.notNil then
          let newStatus : ReorgStatus :=
            ⟨v.slot, v.blockRoot, parentStepId, parentShardInfo, v.shardInfo.hash, false⟩
          let s1 :=
            match s.curReorgStatus with
            | none => { s with curReorgStatus := some newStatus }
            | some rs =>
              if rs.blockRoot == v.blockRoot then
                { s with curReorgStatus := some newStatus }
              else s
          vanCachePhase now s1 v (some parentShardInfo) parentStepId
        else vanCachePhase now s v headShardInfo headStepId
      | .ok none => vanCachePhase now s v headShardInfo headStepId

/-- `processVanguardShardInfo`: nil input is a no-op; when the slot is
already verified and the stored block root differs from the incoming one,
the shard is dropped silently; otherwise the main body runs. -/
def processVanguardShardInfo (now : Nat) (s : Service)
    (vanShardInfo : Option VanguardShardInfo) : Service × Option OrcError :=
  match vanShardInfo with
  | none => (s, none)
  | some v =>
    match s.getShardingInfo v.slot with
    | some shardInfo =>
      if shardInfo.notNil then
        if shardInfo.getVanSlotRoot != v.blockRoot then (s, none)
        else vanMain now s v
      else vanMain now s v
    | none => vanMain now s v

/-! ## Helper lemmas -/

lemma writeFinalizeInfo_slot_le (f : Faults) (st : Store) (a b : Nat) :
    st.finalizedSlot ≤ (writeFinalizeInfo f st a b).finalizedSlot := by
  simp only [writeFinalizeInfo]
  split <;> split <;> simp_all <;> omega

lemma writeFinalizeInfo_epoch_le (f : Faults) (st : Store) (a b : Nat) :
    st.finalizedEpoch ≤ (writeFinalizeInfo f st a b).finalizedEpoch := by
  simp only [writeFinalizeInfo]
  split <;> split <;> simp_all <;> omega

lemma foldl_writeFinalizeInfo_slot_le (f : Faults) (l : List (Nat × Nat)) :
    ∀ st : Store,
      st.finalizedSlot ≤
        (l.foldl (fun acc p => writeFinalizeInfo f acc p.1 p.2) st).finalizedSlot := by
  induction l with
  | nil => intro st; simp
  | cons p t ih =>
    intro st
    exact le_trans (writeFinalizeInfo_slot_le f st p.1 p.2) (ih _)

lemma foldl_writeFinalizeInfo_epoch_le (f : Faults) (l : List (Nat × Nat)) :
    ∀ st : Store,
      st.finalizedEpoch ≤
        (l.foldl (fun acc p => writeFinalizeInfo f acc p.1 p.2) st).finalizedEpoch := by
  induction l with
  | nil => intro st; simp
  | cons p t ih =>
    intro st
    exact le_trans (writeFinalizeInfo_epoch_le f st p.1 p.2) (ih _)

lemma writeShardInfoInDB_fails (f : Faults) (st : Store) (info : MultiShardInfo)
    (hf : f.saveVerifiedErr = true ∨ f.saveStepIdErr = true ∨ f.saveSlotIndexErr = true) :
    (writeShardInfoInDB f st info).2 = some .writeFailed := by
  by_cases h1 : f.saveVerifiedErr = true
  · simp [writeShardInfoInDB, saveVerifiedShardInfo, h1]
  · rw [Bool.not_eq_true] at h1
    by_cases h2 : f.saveStepIdErr = true
    · simp [writeShardInfoInDB, saveVerifiedShardInfo, saveLatestStepId, h1, h2]
    · rw [Bool.not_eq_true] at h2
      have h3 : f.saveSlotIndexErr = true := by
        rcases hf with h | h | h
        · rw [h1] at h; exact absurd h (by simp)
        · rw [h2] at h; exact absurd h (by simp)
        · exact h
      simp [writeShardInfoInDB, saveVerifiedShardInfo, saveLatestStepId, saveSlotStepIndex,
        h1, h2, h3]

lemma writeShardInfoInDB_ok (f : Faults) (st : Store) (info : MultiShardInfo) (st' : Store)
    (hw : writeShardInfoInDB f st info = (st', none)) :
    st'.latestStepId = st.latestStepId + 1 ∧
    lookupRecord st' st'.latestStepId = some info := by
  by_cases h1 : f.saveVerifiedErr = true
  · simp [writeShardInfoInDB, saveVerifiedShardInfo, h1] at hw
  · rw [Bool.not_eq_true] at h1
    by_cases h2 : f.saveStepIdErr = true
    · simp [writeShardInfoInDB, saveVerifiedShardInfo, saveLatestStepId, h1, h2] at hw
    · rw [Bool.not_eq_true] at h2
      by_cases h3 : f.saveSlotIndexErr = true
      · simp [writeShardInfoInDB, saveVerifiedShardInfo, saveLatestStepId, saveSlotStepIndex,
          h1, h2, h3] at hw
      · rw [Bool.not_eq_true] at h3
        simp only [writeShardInfoInDB, saveVerifiedShardInfo, saveLatestStepId,
          saveSlotStepIndex, h1, h2, h3, Bool.false_eq_true, if_false] at hw
        rw [Prod.mk.injEq] at hw
        obtain ⟨hst, -⟩ := hw
        subst hst
        simp [lookupRecord]

lemma writeFinalizeInfo_preserves (f : Faults) (st : Store) (a b : Nat) :
    (writeFinalizeInfo f st a b).records = st.records ∧
    (writeFinalizeInfo f st a b).latestStepId = st.latestStepId := by
  simp only [writeFinalizeInfo]
  split <;> split <;> simp

lemma commitShardInfo_clean_published (s : Service) (v : VanguardShardInfo) (h : PandoraHeader)
    (h1 : s.faults.saveVerifiedErr = false) (h2 : s.faults.saveStepIdErr = false)
    (h3 : s.faults.saveSlotIndexErr = false) :
    (commitShardInfo s v h).1.published =
      s.published ++ [⟨h.hash, v.blockRoot, Status.Verified⟩] ∧
    (commitShardInfo s v h).2 = none := by
  simp [commitShardInfo, writeShardInfoInDB, saveVerifiedShardInfo, saveLatestStepId,
    saveSlotStepIndex, h1, h2, h3, publishBlockConfirmation]

lemma commitShardInfo_fail_state (s : Service) (v : VanguardShardInfo) (h : PandoraHeader)
    (hf : s.faults.saveVerifiedErr = true ∨ s.faults.saveStepIdErr = true ∨
      s.faults.saveSlotIndexErr = true) :
    (commitShardInfo s v h).1.published = s.published ∧
    (commitShardInfo s v h).1.panCache = s.panCache ∧
    (commitShardInfo s v h).1.vanCache = s.vanCache := by
  have hw := writeShardInfoInDB_fails s.faults s.store (prepareMultiShardData v h) hf
  simp only [commitShardInfo]
  cases hww : writeShardInfoInDB s.faults s.store (prepareMultiShardData v h) with
  | mk st' r =>
    rw [hww] at hw
    simp only at hw
    subst hw
    simp

lemma commitShardInfo_cases (s : Service) (v : VanguardShardInfo) (h : PandoraHeader) :
    (commitShardInfo s v h).1.published = s.published ∨
    ((commitShardInfo s v h).1.published =
        s.published ++ [⟨h.hash, v.blockRoot, Status.Verified⟩] ∧
      lookupRecord (commitShardInfo s v h).1.store
          (commitShardInfo s v h).1.store.latestStepId =
        some (prepareMultiShardData v h)) := by
  simp only [commitShardInfo]
  cases hww : writeShardInfoInDB s.faults s.store (prepareMultiShardData v h) with
  | mk st' r =>
    cases r with
    | some e => simp
    | none =>
      right
      obtain ⟨hstep, hrec⟩ := writeShardInfoInDB_ok s.faults s.store
        (prepareMultiShardData v h) st' hww
      obtain ⟨hpr, hpl⟩ := writeFinalizeInfo_preserves s.faults st'
        v.finalizedSlot v.finalizedEpoch
      constructor
      · simp [publishBlockConfirmation]
      · simp only [publishBlockConfirmation, lookupRecord] at *
        rw [hpr, hpl]
        exact hrec

lemma searchAncestor_eq_root (st : Store) (root : Hash) :
    ∀ n p P, searchAncestor st root n = some (p, P) → P.slotBlockRoot = root := by
  intro n
  induction n with
  | zero =>
    intro p P hsp
    simp [searchAncestor] at hsp
  | succ k ih =>
    intro p P hsp
    simp only [searchAncestor] at hsp
    cases hr : lookupRecord st (k + 1) with
    | none =>
      rw [hr] at hsp
      exact ih p P hsp
    | some r =>
      rw [hr] at hsp
      by_cases hb : (r.slotBlockRoot == root) = true
      · simp only [hb, if_true, Option.some.injEq, Prod.mk.injEq] at hsp
        rw [← hsp.2]
        exact beq_iff_eq.mp hb
      · rw [Bool.not_eq_true] at hb
        simp only [hb, Bool.false_eq_true, if_false] at hsp
        exact ih p P hsp

lemma getShardingInfo_publish (s : Service) (a b : Hash) (st : Status) (slot : Slot) :
    (publishBlockConfirmation s a b st).getShardingInfo slot = s.getShardingInfo slot :=
  rfl

lemma prepare_notNil (v : VanguardShardInfo) (h : PandoraHeader) :
    (prepareMultiShardData v h).notNil = true :=
  rfl

lemma prepare_getPanShardRoot (v : VanguardShardInfo) (h : PandoraHeader) :
    (prepareMultiShardData v h).getPanShardRoot = h.hash :=
  rfl

lemma prepare_getVanSlotRoot (v : VanguardShardInfo) (h : PandoraHeader) :
    (prepareMultiShardData v h).getVanSlotRoot = v.blockRoot :=
  rfl

lemma vanMain_install_aux (now : Nat) (s : Service) (v : VanguardShardInfo)
    (hd : MultiShardInfo) (p : StepId) (P : MultiShardInfo)
    (hhead : verifiedShardInfo s.faults s.store s.store.latestStepId = .ok (some hd))
    (hnn : hd.notNil = true)
    (hcr : checkReorg s.store v (some hd) s.store.latestStepId = .ok (some (p, P)))
    (hPnn : P.notNil = true)
    (hcrs : s.curReorgStatus = none) :
    vanMain now s v =
      vanCachePhase now
        { s with curReorgStatus := some (ReorgStatus.mk v.slot v.blockRoot p P v.shardInfo.hash false) }
        v (some P) p := by
  simp [vanMain, hhead, hnn, hcr, hPnn, hcrs]

lemma vanCachePhase_no_pan (now : Nat) (s : Service) (v : VanguardShardInfo)
    (P : MultiShardInfo) (p : StepId)
    (hlink : P.slotBlockRoot = v.parentRoot)
    (hpc : panCacheGet s.panCache v.slot = none) :
    (vanCachePhase now s v (some P) p).2 = none ∧
    (vanCachePhase now s v (some P) p).1.published = s.published ∧
    (vanCachePhase now s v (some P) p).1.store = s.store := by
  simp [vanCachePhase, vanCachePut, hlink, vanMarkInProgress, vanCacheGet,
    List.find?, vanMarkNotInProgress, hpc]

/-! ## Claim theorems -/

/-- C10: a nil input at either public entry point is a no-op — both
`processPandoraHeader` and `processVanguardShardInfo` return success with
the service state (store, caches, reorg status, confirmation feed)
untouched. -/
theorem C10_nil_input_is_noop (now : Nat) (s : Service) :
    processPandoraHeader s none = (s, none) ∧
    processVanguardShardInfo now s none = (s, none) :=
  ⟨rfl, rfl⟩

/-- C9: the short-circuit lookup swallows store read errors — if the
slot-to-step-id lookup or the verified-record read errors,
`getShardingInfo` returns none, and the entry points then continue along
the normal path (`panMain` / `vanMain`); no error from the lookup ever
reaches the caller. -/
theorem C9_lookup_swallows_read_errors (s : Service) (slot : Slot) :
    (getStepIdBySlot s.faults s.store slot = .error () →
      s.getShardingInfo slot = none) ∧
    (∀ stepId, getStepIdBySlot s.faults s.store slot = .ok stepId →
      verifiedShardInfo s.faults s.store stepId = .error () →
      s.getShardingInfo slot = none) ∧
    (∀ hi : PandoraHeaderInfo, s.getShardingInfo hi.slot = none →
      processPandoraHeader s (some hi) = panMain s hi) ∧
    (∀ now : Nat, ∀ v : VanguardShardInfo, s.getShardingInfo v.slot = none →
      processVanguardShardInfo now s (some v) = vanMain now s v) := by
  refine ⟨?_, ?_, ?_, ?_⟩
  · intro h
    simp [Service.getShardingInfo, h]
  · intro stepId h1 h2
    simp [Service.getShardingInfo, h1, h2]
  · intro hi h
    simp [processPandoraHeader, h]
  · intro now v h
    simp [processVanguardShardInfo, h]

/-- C8: finality monotonicity — across any sequence of `writeFinalizeInfo`
calls the stored `finalized_slot` and `finalized_epoch` never decrease,
and a non-increasing input leaves the stored value unchanged. -/
theorem C8_finality_monotone (f : Faults) (st : Store) (l : List (Nat × Nat)) (fs fe : Nat) :
    st.finalizedSlot ≤
      (l.foldl (fun acc p => writeFinalizeInfo f acc p.1 p.2) st).finalizedSlot ∧
    st.finalizedEpoch ≤
      (l.foldl (fun acc p => writeFinalizeInfo f acc p.1 p.2) st).finalizedEpoch ∧
    (fs ≤ st.finalizedSlot →
      (writeFinalizeInfo f st fs fe).finalizedSlot = st.finalizedSlot) ∧
    (fe ≤ st.finalizedEpoch →
      (writeFinalizeInfo f st fs fe).finalizedEpoch = st.finalizedEpoch) := by
  refine ⟨foldl_writeFinalizeInfo_slot_le f l st, foldl_writeFinalizeInfo_epoch_le f l st, ?_, ?_⟩
  · intro h
    simp only [writeFinalizeInfo]
    split <;> split <;> simp_all <;> omega
  · intro h
    simp only [writeFinalizeInfo]
    split <;> split <;> simp_all <;> omega

/-- C6: an `UnknownParent` rejection from a cache put never propagates to
the producer — the pandora path publishes `Invalid` with the pair
`(h.hash, zero-hash)` and returns success; the vanguard path returns
success silently, publishing nothing and changing nothing. -/
theorem C6_unknown_parent_not_propagated (s : Service) (hi : PandoraHeaderInfo)
    (latest head : Option MultiShardInfo) (stepId hStep : StepId) (now : Nat)
    (v : VanguardShardInfo) :
    (panCachePut s.panCache hi.slot hi.header latest = .error () →
      panCachePhase s hi latest stepId =
        (publishBlockConfirmation s hi.header.hash 0 .Invalid, none)) ∧
    (vanCachePut s.vanCache v.slot v
        (decide (v.slot < (now - s.genesisTime) / s.secondsPerSlot)) head = .error () →
      vanCachePhase now s v head hStep = (s, none)) := by
  constructor
  · intro h
    simp [panCachePhase, h]
  · intro h
    simp [vanCachePhase, h]

/-- C1: `insertIntoChain` publishes `Verified` exactly when the structural
compare and the parent-link check both succeed (under fault-free stores);
when either check fails it publishes `Invalid` with the pair
`(h.hash, v.block_root)` and changes nothing — in particular nothing is
appended to the shard store. -/
theorem C1_insert_status_iff (s : Service) (v : VanguardShardInfo) (h : PandoraHeader)
    (latest : Option MultiShardInfo) (stepId : StepId)
    (hclean : s.faults = Faults.none) :
    (insertIntoChain s v h latest stepId).1.published =
      s.published ++ [⟨h.hash, v.blockRoot,
        if compareShardingInfo h v.shardInfo && verifyShardInfo latest h v stepId
        then Status.Verified else Status.Invalid⟩] ∧
    ((compareShardingInfo h v.shardInfo && verifyShardInfo latest h v stepId) = false →
      insertIntoChain s v h latest stepId =
        (publishBlockConfirmation s h.hash v.blockRoot .Invalid, none)) := by
  by_cases hc : (compareShardingInfo h v.shardInfo && verifyShardInfo latest h v stepId) = true
  · refine ⟨?_, fun hfalse => by rw [hc] at hfalse; exact absurd hfalse (by simp)⟩
    rw [hc, if_pos rfl]
    have hflags : ∀ t : Service, t.faults = Faults.none →
        (commitShardInfo t v h).1.published =
          t.published ++ [⟨h.hash, v.blockRoot, Status.Verified⟩] := by
      intro t ht
      exact (commitShardInfo_clean_published t v h (by rw [ht]; rfl) (by rw [ht]; rfl)
        (by rw [ht]; rfl)).1
    simp only [insertIntoChain, hc, if_true]
    cases hrs : s.curReorgStatus with
    | none => exact hflags s hclean
    | some rs =>
      by_cases hm : (rs.slot == v.slot && rs.blockRoot == v.blockRoot && !rs.hasResolved) = true
      · simp only [hm, if_true]
        have hok : processReorg s.faults s.store rs.parentStepId =
            .ok { s.store with
              records := s.store.records.filter (fun p => decide (p.1 ≤ rs.parentStepId))
              slotIndex := s.store.slotIndex.filter (fun p => decide (p.2 ≤ rs.parentStepId))
              latestStepId := rs.parentStepId } := by
          simp [processReorg, hclean, Faults.none]
        rw [hok]
        exact hflags _ (by simp [hclean])
      · rw [Bool.not_eq_true] at hm
        simp only [hm, Bool.false_eq_true, if_false]
        exact hflags s hclean
  · rw [Bool.not_eq_true] at hc
    constructor
    · rw [hc, if_neg (by simp)]
      simp [insertIntoChain, hc, publishBlockConfirmation]
    · intro _
      simp [insertIntoChain, hc]

/-- C2: when a store write fails inside `insertIntoChain`, the call
returns without publishing and without evicting the cache entries; and a
`Verified` confirmation is emitted by `insertIntoChain` only for the exact
pair `(h.hash, v.block_root)` and only together with a successful append
of the record binding that pair. -/
theorem C2_write_failure_no_publish (s : Service) (v : VanguardShardInfo) (h : PandoraHeader)
    (latest : Option MultiShardInfo) (stepId : StepId) (a b : Hash) :
    ((compareShardingInfo h v.shardInfo && verifyShardInfo latest h v stepId) = true →
      (s.faults.saveVerifiedErr = true ∨ s.faults.saveStepIdErr = true ∨
        s.faults.saveSlotIndexErr = true) →
      (insertIntoChain s v h latest stepId).1.published = s.published ∧
      (insertIntoChain s v h latest stepId).1.panCache = s.panCache ∧
      (insertIntoChain s v h latest stepId).1.vanCache = s.vanCache) ∧
    ((insertIntoChain s v h latest stepId).1.published =
        s.published ++ [⟨a, b, Status.Verified⟩] →
      a = h.hash ∧ b = v.blockRoot ∧
      lookupRecord (insertIntoChain s v h latest stepId).1.store
          (insertIntoChain s v h latest stepId).1.store.latestStepId =
        some (prepareMultiShardData v h)) := by
  constructor
  · intro hc hf
    simp only [insertIntoChain, hc, if_true]
    cases hrs : s.curReorgStatus with
    | none => exact commitShardInfo_fail_state s v h hf
    | some rs =>
      by_cases hm : (rs.slot == v.slot && rs.blockRoot == v.blockRoot && !rs.hasResolved) = true
      · simp only [hm, if_true]
        cases hpr : processReorg s.faults s.store rs.parentStepId with
        | error e => exact ⟨rfl, rfl, rfl⟩
        | ok st' => exact commitShardInfo_fail_state _ v h hf
      · rw [Bool.not_eq_true] at hm
        simp only [hm, Bool.false_eq_true, if_false]
        exact commitShardInfo_fail_state s v h hf
  · intro hpub
    by_cases hc : (compareShardingInfo h v.shardInfo && verifyShardInfo latest h v stepId) = true
    · simp only [insertIntoChain, hc, if_true] at hpub ⊢
      have hcommit : ∀ t : Service, t.published = s.published →
          (commitShardInfo t v h).1.published = s.published ++ [⟨a, b, Status.Verified⟩] →
          a = h.hash ∧ b = v.blockRoot ∧
          lookupRecord (commitShardInfo t v h).1.store
              (commitShardInfo t v h).1.store.latestStepId =
            some (prepareMultiShardData v h) := by
        intro t ht hp
        rcases commitShardInfo_cases t v h with hcase | ⟨hcase, hrec⟩
        · rw [hcase, ht] at hp
          simp at hp
        · rw [hcase, ht] at hp
          have h2 := List.append_cancel_left hp
          simp only [List.cons.injEq, and_true, Confirmation.mk.injEq] at h2
          exact ⟨h2.1.symm, h2.2.symm, hrec⟩
      revert hpub
      cases hrs : s.curReorgStatus with
      | none =>
        intro hpub
        exact hcommit s rfl hpub
      | some rs =>
        by_cases hm : (rs.slot == v.slot && rs.blockRoot == v.blockRoot && !rs.hasResolved) = true
        · cases hpr : processReorg s.faults s.store rs.parentStepId with
          | error e =>
            intro hpub
            simp only [hm, hpr, if_true] at hpub
            simp at hpub
          | ok st' =>
            intro hpub
            simp only [hm, hpr, if_true] at hpub ⊢
            exact hcommit _ rfl hpub
        · rw [Bool.not_eq_true] at hm
          intro hpub
          simp only [hm, Bool.false_eq_true, if_false] at hpub ⊢
          exact hcommit s rfl hpub
    · rw [Bool.not_eq_true] at hc
      simp only [insertIntoChain, hc, Bool.false_eq_true, if_false,
        publishBlockConfirmation] at hpub
      have := List.append_cancel_left hpub
      simp at this

/-- C7: inside `insertIntoChain`, when `cur_reorg_status` matches
`(v.slot, v.block_root)` and is unresolved, `processReorg` runs before the
append; on failure the call returns nil without appending or publishing,
leaving `has_resolved = false`; on success the call continues into the
commit with `has_resolved` set to true. -/
theorem C7_reorg_before_append (s : Service) (v : VanguardShardInfo) (h : PandoraHeader)
    (latest : Option MultiShardInfo) (stepId : StepId) (rs : ReorgStatus)
    (hcheck : (compareShardingInfo h v.shardInfo && verifyShardInfo latest h v stepId) = true)
    (hrs : s.curReorgStatus = some rs)
    (hslot : rs.slot = v.slot) (hroot : rs.blockRoot = v.blockRoot)
    (hres : rs.hasResolved = false) :
    (s.faults.processReorgErr = true →
      insertIntoChain s v h latest stepId = (s, none)) ∧
    (∀ st', processReorg s.faults s.store rs.parentStepId = .ok st' →
      insertIntoChain s v h latest stepId =
        commitShardInfo
          { s with store := st', curReorgStatus := some { rs with hasResolved := true } }
          v h) := by
  constructor
  · intro hf
    simp [insertIntoChain, hcheck, hrs, hslot, hroot, hres, processReorg, hf]
  · intro st' hpr
    simp [insertIntoChain, hcheck, hrs, hslot, hroot, hres, hpr]

/-- C4 (amended): the vanguard short-circuit is inverted with respect to
the pandora one — when the slot already has a verified record whose
consensus root differs from `v.block_root`, `processVanguardShardInfo`
returns early and silently (publishing nothing, touching nothing); when
the stored root equals `v.block_root`, processing continues past the
short-circuit into the main body. -/
theorem C4_van_short_circuit_inverted (now : Nat) (s : Service) (v : VanguardShardInfo)
    (si : MultiShardInfo)
    (h1 : s.getShardingInfo v.slot = some si) (h2 : si.notNil = true) :
    (si.getVanSlotRoot ≠ v.blockRoot →
      processVanguardShardInfo now s (some v) = (s, none)) ∧
    (si.getVanSlotRoot = v.blockRoot →
      processVanguardShardInfo now s (some v) = vanMain now s v) := by
  constructor
  · intro hne
    simp [processVanguardShardInfo, h1, h2, bne_iff_ne, hne]
  · intro heq
    simp [processVanguardShardInfo, h1, h2, bne_iff_ne, heq]

/-- C5 (amended): when the reorg check finds a confirmed common ancestor
`(p, P)`, `processVanguardShardInfo` installs `cur_reorg_status`
populated with the shard's slot and block root, the ancestor's step id and
record, the execution hash from `v.shard_info.hash` and
`has_resolved = false` — but only when the current status is nil or
carries the same block root; an existing status for a different block
root is left untouched.  In every case `latest` is substituted by
`(p, P)` for the remainder of the call. -/
theorem C5_reorg_install_guarded (now : Nat) (s : Service) (v : VanguardShardInfo)
    (hd : MultiShardInfo) (p : StepId) (P : MultiShardInfo)
    (hhead : verifiedShardInfo s.faults s.store s.store.latestStepId = .ok (some hd))
    (hnn : hd.notNil = true)
    (hcr : checkReorg s.store v (some hd) s.store.latestStepId = .ok (some (p, P)))
    (hPnn : P.notNil = true) :
    (s.curReorgStatus = none →
      vanMain now s v =
        vanCachePhase now
          { s with curReorgStatus := some (ReorgStatus.mk v.slot v.blockRoot p P v.shardInfo.hash false) }
          v (some P) p) ∧
    (∀ rs, s.curReorgStatus = some rs → rs.blockRoot = v.blockRoot →
      vanMain now s v =
        vanCachePhase now
          { s with curReorgStatus := some (ReorgStatus.mk v.slot v.blockRoot p P v.shardInfo.hash false) }
          v (some P) p) ∧
    (∀ rs, s.curReorgStatus = some rs → rs.blockRoot ≠ v.blockRoot →
      vanMain now s v = vanCachePhase now s v (some P) p) := by
  refine ⟨?_, ?_, ?_⟩
  · intro hcrs
    simp [vanMain, hhead, hnn, hcr, hPnn, hcrs]
  · intro rs hcrs heq
    simp [vanMain, hhead, hnn, hcr, hPnn, hcrs, heq]
  · intro rs hcrs hne
    simp [vanMain, hhead, hnn, hcr, hPnn, hcrs, hne]

/-- C3 (amended): starting from a state in which the pair `(h, v)` has
been verified, committed and its caches evicted, feeding the pair again
(`processPandoraHeader` then `processVanguardShardInfo`) performs no new
append, leaves `latest_step_id` unchanged, and publishes exactly one
additional `Verified` confirmation — from the pandora entry point's
short-circuit; the vanguard entry point publishes nothing since its
short-circuit returns early only when the stored root differs. -/
theorem C3_replay_single_republish (now : Nat) (s : Service) (v : VanguardShardInfo)
    (h : PandoraHeader) (n p : StepId) (P : MultiShardInfo)
    (hclean : s.faults = Faults.none)
    (hn : s.store.latestStepId = n) (hn0 : 0 < n)
    (hidx : lookupSlotIndex s.store v.slot = some n)
    (hrec : lookupRecord s.store n = some (prepareMultiShardData v h))
    (hne : v.blockRoot ≠ v.parentRoot)
    (hanc : searchAncestor s.store v.parentRoot (n - 1) = some (p, P))
    (hPnn : P.notNil = true)
    (hpc : panCacheGet s.panCache v.slot = none)
    (hcrs : s.curReorgStatus = none) :
    processPandoraHeader s (some ⟨v.slot, h⟩) =
      (publishBlockConfirmation s h.hash v.blockRoot .Verified, none) ∧
    (processVanguardShardInfo now
        (publishBlockConfirmation s h.hash v.blockRoot .Verified) (some v)).2 = none ∧
    (processVanguardShardInfo now
        (publishBlockConfirmation s h.hash v.blockRoot .Verified) (some v)).1.published =
      s.published ++ [⟨h.hash, v.blockRoot, Status.Verified⟩] ∧
    (processVanguardShardInfo now
        (publishBlockConfirmation s h.hash v.blockRoot .Verified) (some v)).1.store =
      s.store := by
  have hR : (prepareMultiShardData v h).notNil = true := by
    simp [prepareMultiShardData, MultiShardInfo.notNil]
  have hg : s.getShardingInfo v.slot = some (prepareMultiShardData v h) := by
    simp [Service.getShardingInfo, getStepIdBySlot, verifiedShardInfo, hclean, Faults.none,
      hidx, hrec]
  have hpan : processPandoraHeader s (some ⟨v.slot, h⟩) =
      (publishBlockConfirmation s h.hash v.blockRoot .Verified, none) := by
    simp [processPandoraHeader, hg, prepare_notNil, prepare_getPanShardRoot,
      prepare_getVanSlotRoot]
  refine ⟨hpan, ?_⟩
  have hg1 : (publishBlockConfirmation s h.hash v.blockRoot .Verified).getShardingInfo v.slot =
      some (prepareMultiShardData v h) := by
    rw [getShardingInfo_publish]
    exact hg
  have hvm : processVanguardShardInfo now
      (publishBlockConfirmation s h.hash v.blockRoot .Verified) (some v) =
      vanMain now (publishBlockConfirmation s h.hash v.blockRoot .Verified) v := by
    simp [processVanguardShardInfo, hg1, prepare_notNil, prepare_getVanSlotRoot]
  have hhead : verifiedShardInfo
      (publishBlockConfirmation s h.hash v.blockRoot .Verified).faults
      (publishBlockConfirmation s h.hash v.blockRoot .Verified).store
      (publishBlockConfirmation s h.hash v.blockRoot .Verified).store.latestStepId =
      .ok (some (prepareMultiShardData v h)) := by
    show verifiedShardInfo s.faults s.store s.store.latestStepId = _
    rw [hn]
    simp [verifiedShardInfo, hclean, Faults.none, hrec]
  have hcr : checkReorg
      (publishBlockConfirmation s h.hash v.blockRoot .Verified).store v
      (some (prepareMultiShardData v h))
      (publishBlockConfirmation s h.hash v.blockRoot .Verified).store.latestStepId =
      .ok (some (p, P)) := by
    show checkReorg s.store v _ s.store.latestStepId = _
    rw [hn]
    have hne' : (n == 0) = false :=
      beq_eq_false_iff_ne.mpr (Nat.pos_iff_ne_zero.mp hn0)
    simp [checkReorg, hne', prepareMultiShardData, hne, Ne.symm hne, hanc]
  have hinst := vanMain_install_aux now
    (publishBlockConfirmation s h.hash v.blockRoot .Verified) v
    (prepareMultiShardData v h) p P hhead hR hcr hPnn (by simp [publishBlockConfirmation, hcrs])
  have hlink : P.slotBlockRoot = v.parentRoot :=
    searchAncestor_eq_root s.store v.parentRoot (n - 1) p P hanc
  have hphase := vanCachePhase_no_pan now
    { publishBlockConfirmation s h.hash v.blockRoot .Verified with
      curReorgStatus := some (ReorgStatus.mk v.slot v.blockRoot p P v.shardInfo.hash false) }
    v P p hlink (by simp [publishBlockConfirmation, hpc])
  rw [hvm, hinst]
  exact ⟨hphase.1, hphase.2.1, hphase.2.2⟩

/-! ## Concrete scenario

The specification's happy-path scenario: a genesis pair at slot 1 and a
chained pair at slot 2, committed through the entry points themselves. -/

def exShard1 : ShardData := ⟨1, 2, 3, 4, 5, 6, 17, 7, 8, 9⟩

def exHeader1 : PandoraHeader := ⟨17, 0, 1, exShard1⟩

def exVan1 : VanguardShardInfo := ⟨1, 170, 0, 0, 0, exShard1⟩

def exShard2 : ShardData := ⟨1, 2, 3, 4, 5, 6, 34, 7, 8, 10⟩

def exHeader2 : PandoraHeader := ⟨34, 17, 2, exShard2⟩

def exVan2 : VanguardShardInfo := ⟨2, 187, 170, 0, 0, exShard2⟩

def exService0 : Service := ⟨⟨[], [], 0, 0, 0⟩, [], [], none, [], 0, 6, Faults.none⟩

/-- The service after the slot-1 pair has been verified and committed. -/
def exService2 : Service :=
  (processPandoraHeader (processVanguardShardInfo 0 exService0 (some exVan1)).1
    (some ⟨1, exHeader1⟩)).1

/-- The service after the slot-1 and slot-2 pairs have been committed. -/
def exService4 : Service :=
  (processPandoraHeader (processVanguardShardInfo 0 exService2 (some exVan2)).1
    (some ⟨2, exHeader2⟩)).1

def exR1 : MultiShardInfo := prepareMultiShardData exVan1 exHeader1

def exR2 : MultiShardInfo := prepareMultiShardData exVan2 exHeader2

/-! ## Counterexamples and witnesses -/

/-- C3 counterexample: replaying the committed slot-2 pair through both
entry points yields exactly one additional `Verified` confirmation — not
two — and no new append; the vanguard entry point's short-circuit
publishes nothing. -/
theorem C3_counterexample :
    (processVanguardShardInfo 0
        (processPandoraHeader exService4 (some ⟨2, exHeader2⟩)).1 (some exVan2)).1.published =
      exService4.published ++ [⟨34, 187, Status.Verified⟩] ∧
    (processVanguardShardInfo 0
        (processPandoraHeader exService4 (some ⟨2, exHeader2⟩)).1
        (some exVan2)).1.published.length = exService4.published.length + 1 ∧
    (processVanguardShardInfo 0
        (processPandoraHeader exService4 (some ⟨2, exHeader2⟩)).1 (some exVan2)).1.store =
      exService4.store :=
  ⟨rfl, rfl, rfl⟩

theorem C3_witness :
    0 < (2 : Nat) ∧
    processPandoraHeader exService4 (some ⟨exVan2.slot, exHeader2⟩) =
      (publishBlockConfirmation exService4 exHeader2.hash exVan2.blockRoot .Verified, none) := by
  refine ⟨by decide, ?_⟩
  exact (C3_replay_single_republish 0 exService4 exVan2 exHeader2 2 1 exR1 rfl rfl (by decide)
    rfl rfl (by decide) rfl rfl rfl rfl).1

/-- C4 counterexample: for the committed slot-2 pair (stored consensus
root equal to the incoming shard's block root), `processVanguardShardInfo`
does not return early: it publishes nothing and writes the vanguard cache,
contradicting the claimed `Verified` re-publish with untouched caches. -/
theorem C4_counterexample :
    Service.getShardingInfo exService4 exVan2.slot = some exR2 ∧
    exR2.getVanSlotRoot = exVan2.blockRoot ∧
    (processVanguardShardInfo 0 exService4 (some exVan2)).1.published =
      exService4.published ∧
    vanCacheGet (processVanguardShardInfo 0 exService4 (some exVan2)).1.vanCache
      exVan2.slot ≠ none := by
  refine ⟨rfl, rfl, rfl, ?_⟩
  decide

def exVan2b : VanguardShardInfo := ⟨2, 500, 170, 0, 0, exShard2⟩

theorem C4_witness :
    Service.getShardingInfo exService4 exVan2b.slot = some exR2 ∧
    exR2.notNil = true ∧
    processVanguardShardInfo 0 exService4 (some exVan2b) = (exService4, none) := by
  refine ⟨rfl, rfl, ?_⟩
  exact (C4_van_short_circuit_inverted 0 exService4 exVan2b exR2 rfl rfl).1 (by decide)

def exRs0 : ReorgStatus := ⟨42, 999, 1, exR1, 777, false⟩

def exService5 : Service := { exService4 with curReorgStatus := some exRs0 }

/-- C5 counterexample: with an existing unresolved reorg status for a
different block root, an incoming shard for which the reorg check finds a
common ancestor does not install a new `cur_reorg_status`: the old one
(for slot 42, not the shard's slot 2) survives the call. -/
theorem C5_counterexample :
    checkReorg exService5.store exVan2 (some exR2) exService5.store.latestStepId =
      .ok (some (1, exR1)) ∧
    (processVanguardShardInfo 0 exService5 (some exVan2)).1.curReorgStatus = some exRs0 ∧
    exRs0.slot ≠ exVan2.slot := by
  refine ⟨rfl, rfl, ?_⟩
  decide

theorem C5_witness :
    verifiedShardInfo exService4.faults exService4.store exService4.store.latestStepId =
      .ok (some exR2) ∧
    checkReorg exService4.store exVan2 (some exR2) exService4.store.latestStepId =
      .ok (some (1, exR1)) ∧
    vanMain 0 exService4 exVan2 =
      vanCachePhase 0
        { exService4 with curReorgStatus := some (ReorgStatus.mk exVan2.slot exVan2.blockRoot 1 exR1 exVan2.shardInfo.hash false) }
        exVan2 (some exR1) 1 := by
  refine ⟨rfl, rfl, ?_⟩
  exact (C5_reorg_install_guarded 0 exService4 exVan2 exR2 1 exR1 rfl rfl rfl rfl).1 rfl

theorem C1_witness :
    exService0.faults = Faults.none ∧
    (insertIntoChain exService0 exVan1 exHeader1 none 0).1.published =
      exService0.published ++ [⟨exHeader1.hash, exVan1.blockRoot,
        if compareShardingInfo exHeader1 exVan1.shardInfo &&
            verifyShardInfo none exHeader1 exVan1 0
        then Status.Verified else Status.Invalid⟩] :=
  ⟨rfl, (C1_insert_status_iff exService0 exVan1 exHeader1 none 0 rfl).1⟩

def exFaultsWrite : Faults := { Faults.none with saveVerifiedErr := true }

def exService6 : Service := { exService2 with faults := exFaultsWrite }

theorem C2_witness :
    (compareShardingInfo exHeader2 exVan2.shardInfo &&
      verifyShardInfo (some exR1) exHeader2 exVan2 1) = true ∧
    exService6.faults.saveVerifiedErr = true ∧
    (insertIntoChain exService6 exVan2 exHeader2 (some exR1) 1).1.published =
      exService6.published := by
  refine ⟨rfl, rfl, ?_⟩
  exact ((C2_write_failure_no_publish exService6 exVan2 exHeader2 (some exR1) 1 0 0).1
    rfl (Or.inl rfl)).1

def exRs1 : ReorgStatus := ⟨2, 187, 1, exR1, 34, false⟩

def exService7 : Service := { exService2 with curReorgStatus := some exRs1 }

def exStoreReorged : Store := ⟨[(1, exR1)], [(1, 1)], 1, 0, 0⟩

theorem C7_witness :
    (compareShardingInfo exHeader2 exVan2.shardInfo &&
      verifyShardInfo (some exR1) exHeader2 exVan2 1) = true ∧
    exService7.curReorgStatus = some exRs1 ∧
    exRs1.slot = exVan2.slot ∧
    exRs1.blockRoot = exVan2.blockRoot ∧
    exRs1.hasResolved = false ∧
    processReorg exService7.faults exService7.store exRs1.parentStepId = .ok exStoreReorged ∧
    insertIntoChain exService7 exVan2 exHeader2 (some exR1) 1 =
      commitShardInfo
        { exService7 with store := exStoreReorged, curReorgStatus := some { exRs1 with hasResolved := true } }
        exVan2 exHeader2 := by
  refine ⟨rfl, rfl, rfl, rfl, rfl, rfl, ?_⟩
  exact (C7_reorg_before_append exService7 exVan2 exHeader2 (some exR1) 1 exRs1
    rfl rfl rfl rfl rfl).2 exStoreReorged rfl

def exOrphanHeader : PandoraHeader := ⟨99, 57005, 3, exShard1⟩

def exOrphanVan : VanguardShardInfo := ⟨3, 61, 57005, 0, 0, exShard1⟩

theorem C6_witness :
    panCachePut exService2.panCache 3 exOrphanHeader (some exR1) = .error () ∧
    vanCachePut exService2.vanCache 3 exOrphanVan
      (decide (exOrphanVan.slot < (0 - exService2.genesisTime) / exService2.secondsPerSlot))
      (some exR1) = .error () ∧
    panCachePhase exService2 ⟨3, exOrphanHeader⟩ (some exR1) 1 =
      (publishBlockConfirmation exService2 exOrphanHeader.hash 0 .Invalid, none) ∧
    vanCachePhase 0 exService2 exOrphanVan (some exR1) 1 = (exService2, none) := by
  refine ⟨rfl, rfl, ?_, ?_⟩
  · exact (C6_unknown_parent_not_propagated exService2 ⟨3, exOrphanHeader⟩ (some exR1)
      (some exR1) 1 1 0 exOrphanVan).1 rfl
  · exact (C6_unknown_parent_not_propagated exService2 ⟨3, exOrphanHeader⟩ (some exR1)
      (some exR1) 1 1 0 exOrphanVan).2 rfl

theorem C8_witness :
    (1 : Nat) ≤ 5 ∧
    (writeFinalizeInfo Faults.none ⟨[], [], 0, 5, 7⟩ 1 9).finalizedSlot = 5 := by
  refine ⟨by decide, ?_⟩
  exact (C8_finality_monotone Faults.none ⟨[], [], 0, 5, 7⟩ [(3, 4)] 1 9).2.2.1 (by decide)

def exFaultsRead : Faults := { Faults.none with stepIdErrSlots := [5] }

def exService8 : Service := { exService2 with faults := exFaultsRead }

theorem C9_witness :
    getStepIdBySlot exService8.faults exService8.store 5 = .error () ∧
    Service.getShardingInfo exService8 5 = none := by
  refine ⟨rfl, ?_⟩
  exact (C9_lookup_swallows_read_errors exService8 5).1 rfl

end Orc
